import Mathlib

/-!
Shallow embedding of the simulated-clock advancement and retry-reconciliation
engine of this repository (scripts/generate_date.py,
scripts/generate_past_due_new.py, scripts/generate_upgrade.py).

Remote calls are modelled by environments that fix, per call site, the outcome
of each retrieval, advance attempt and payment attempt; the control flow of
the scripts is translated statement by statement.
-/

set_option maxHeartbeats 1000000

namespace StripeGen

/-! ## Duck-typed response access (generate_date.py / generate_upgrade.py)

The scripts read fields of remote responses as
`getattr(tc, 'f', None) or (tc.get('f') if hasattr(tc, 'get') else None)`.
`ClockResp` models such a response: the value the attribute access yields
(`none` encodes Python `None` or a missing attribute), whether the object
supports dict-style access, and the value `get` yields. -/

structure ClockResp where
  attr_frozen : Option Int
  attr_status : Option String
  has_get : Bool
  dict_frozen : Option Int
  dict_status : Option String
  deriving Repr, DecidableEq

/-- Python truthiness-based `a or b` on optional integers: `None` and `0` are
falsy, so `a or b` yields `a` exactly when `a` is a nonzero integer. -/
def pyOrInt (a b : Option Int) : Option Int :=
  match a with
  | some v => if v = 0 then b else some v
  | none => b

/-- Python truthiness-based `a or b` on optional strings: `None` and the empty
string are falsy. -/
def pyOrStr (a b : Option String) : Option String :=
  match a with
  | some v => if v = "" then b else some v
  | none => b

/-- Value of `getattr(tc, 'frozen_time', None) or (tc.get('frozen_time') if
hasattr(tc, 'get') else None)` (generate_date.py line 71). -/
def ClockResp.curFrozen (r : ClockResp) : Option Int :=
  pyOrInt r.attr_frozen (if r.has_get then r.dict_frozen else none)

/-- Value of `getattr(tc, 'status', None) or (tc.get('status') if
hasattr(tc, 'get') else None)` (generate_date.py line 105). -/
def ClockResp.curStatus (r : ClockResp) : Option String :=
  pyOrStr r.attr_status (if r.has_get then r.dict_status else none)

/-- The `cur` variable of `advance_test_clock` (generate_date.py lines 69-73):
`none` when the initial retrieve raised, otherwise the duck-typed extraction. -/
def curOf (pre : Option ClockResp) : Option Int :=
  match pre with
  | none => none
  | some r => r.curFrozen

/-- The frozen time actually sent to the remote advance call
(generate_date.py lines 75-76): bumped to `cur + 1` exactly when `cur` is not
`None` and the request is not strictly greater than `cur`. -/
def effectiveTarget (pre : Option ClockResp) (frozen_time : Int) : Int :=
  match curOf pre with
  | some cur => if frozen_time ≤ cur then cur + 1 else frozen_time
  | none => frozen_time

/-! ## Cycle scheduler (generate_past_due_new.py lines 299-318) -/

/-- Translation of `next_cycle_after(billing_anchor, cycle_index, cur_frozen,
month)`: the next cycle timestamp for `cycle_index` that is strictly after
`cur_frozen`.  Python `//` is floor division, hence `Int.fdiv`. -/
def next_cycle_after (billing_anchor cycle_index cur_frozen month : Int) : Int :=
  let desired := billing_anchor + cycle_index * month + 60
  if cur_frozen < desired then desired
  else
    let elapsed := cur_frozen - billing_anchor - 60
    let k0 := if elapsed < 0 then cycle_index else elapsed.fdiv month + 1
    let k := if k0 < cycle_index then cycle_index else k0
    billing_anchor + k * month + 60

/-! ## Clock advancement (generate_date.py lines 67-113, identical in
generate_upgrade.py lines 67-111) -/

/-- Errors raised by `advance_test_clock`: the `RuntimeError` of line 97
(message names the clock id and the attempt bound) and the `TimeoutError` of
line 112 (message names the clock id and the requested frozen time). -/
inductive AdvanceErr where
  | advanceFailed (clockId : String) (attempts : Nat)
  | advanceTimeout (clockId : String) (requested : Int)
  deriving Repr, DecidableEq

/-- Retry loop of generate_date.py lines 82-94: attempt the remote advance;
on any exception sleep for the current backoff, multiply the backoff by 1.5
capped at 5.0, and retry.  `ok n` tells whether attempt `n` succeeds; the
result is the index of the successful attempt (if any) together with the list
of sleeps performed.  The backoff arithmetic on 0.5 and 1.5 is exact in
binary floating point for every attempt index used here, so rationals model
it faithfully. -/
def retryLoop (ok : Nat → Bool) (backoff : ℚ) (attempt : Nat) : Nat → Option Nat × List ℚ
  | 0 => (none, [])
  | fuel + 1 =>
    if ok attempt then (some attempt, [])
    else
      let rest := retryLoop ok (min (backoff * (3 / 2)) 5) (attempt + 1) fuel
      (rest.1, backoff :: rest.2)

/-- Closed form of the backoff value slept at the n-th failed attempt. -/
def backoffSeq : Nat → ℚ
  | 0 => 1 / 2
  | n + 1 => min (backoffSeq n * (3 / 2)) 5

/-- Poll exit test of generate_date.py line 107:
`status == 'ready' and (new_frozen is None or new_frozen >= frozen_time)`. -/
def pollAccept (r : ClockResp) (target : Int) : Bool :=
  (r.curStatus == some "ready") &&
    (match r.curFrozen with
     | none => true
     | some f => target ≤ f)

/-- Poll loop of generate_date.py lines 100-113: retrieve the clock (an
exception is swallowed), return it when `pollAccept` holds, raise
`TimeoutError` when the wall-clock budget is exhausted.  The budget is
modelled as a fuel of poll iterations (the reference loop sleeps 1s per
iteration against a 60s budget). -/
def pollLoop (poll : Nat → Option ClockResp) (clockId : String) (target : Int) :
    Nat → Nat → Except AdvanceErr ClockResp
  | _, 0 => .error (.advanceTimeout clockId target)
  | i, fuel + 1 =>
    match poll i with
    | some r =>
      if pollAccept r target then .ok r
      else pollLoop poll clockId target (i + 1) fuel
    | none => pollLoop poll clockId target (i + 1) fuel

/-- Remote outcomes feeding one call of `advance_test_clock`: the initial
retrieve (`none` when it raises, lines 69-73), the success of each advance
attempt (lines 82-94) and the retrieve outcome of each poll iteration
(lines 102-113). -/
structure AdvanceEnv where
  preRetrieve : Option ClockResp
  advanceOk : Nat → Bool
  poll : Nat → Option ClockResp

/-- Translation of `advance_test_clock(stripe, clock_id, frozen_time)`
(generate_date.py lines 67-113): compute the effective target, retry the
advance up to 8 attempts, then poll until ready-at-target or timeout. -/
def advance_test_clock (env : AdvanceEnv) (clockId : String) (frozen_time : Int)
    (pollFuel : Nat) : Except AdvanceErr ClockResp :=
  let ft := effectiveTarget env.preRetrieve frozen_time
  match (retryLoop env.advanceOk (1 / 2) 0 8).1 with
  | none => .error (.advanceFailed clockId 8)
  | some _ => pollLoop env.poll clockId ft 0 pollFuel

/-- The sleeps performed by the retry loop of one `advance_test_clock` call. -/
def advanceSleeps (env : AdvanceEnv) : List ℚ :=
  (retryLoop env.advanceOk (1 / 2) 0 8).2

/-- Index of the first successful advance attempt of one
`advance_test_clock` call, if any attempt succeeded. -/
def advanceFirstOk (env : AdvanceEnv) : Option Nat :=
  (retryLoop env.advanceOk (1 / 2) 0 8).1

/-! ## Clock advancement (generate_past_due_new.py lines 45-77)

Responses in this script are accessed as plain dict fields
(`tc["frozen_time"]`, `tc.get("status")`), so the clock is a record. -/

structure TestClockD where
  frozen_time : Int
  status : String
  deriving Repr, DecidableEq

/-- Translation of `wait_until_testclock_ready` (lines 45-55): poll the clock
and return it as soon as `status == "ready"`; `none` models the
`TimeoutError` when the budget (modelled as poll-iteration fuel) elapses.
The loop inspects only the status, never the frozen time. -/
def wait_until_testclock_ready (pollSeq : Nat → TestClockD) : Nat → Nat → Option TestClockD
  | _, 0 => none
  | i, fuel + 1 =>
    let tc := pollSeq i
    if tc.status = "ready" then some tc
    else wait_until_testclock_ready pollSeq (i + 1) fuel

/-- Remote outcomes feeding one call of `advance_clock` (lines 57-77): the
initial retrieve, the poll sequence of `wait_until_testclock_ready`, and the
final retrieve of line 76. -/
structure PdAdvanceEnv where
  preRetrieve : TestClockD
  pollSeq : Nat → TestClockD
  finalRetrieve : TestClockD

/-- Translation of `advance_clock(test_clock_id, new_frozen_time)`
(lines 57-77): read the current frozen time, bump a non-increasing request to
`cur + 1`, request the advance, wait until ready, and retrieve the final
clock.  The result pairs the frozen time actually requested with the final
retrieved clock (`none` when the ready-wait timed out). -/
def advance_clock (env : PdAdvanceEnv) (new_frozen_time : Int) (pollFuel : Nat) :
    Int × Option TestClockD :=
  let cur := env.preRetrieve.frozen_time
  let target := if new_frozen_time ≤ cur then cur + 1 else new_frozen_time
  match wait_until_testclock_ready env.pollSeq 0 pollFuel with
  | none => (target, none)
  | some _ => (target, some env.finalRetrieve)

/-- Observable outcome of one `advance_clock` call with the remote advance
request's exception behaviour made explicit: the propagated result, the
number of advance requests issued, and the backoff sleeps performed. -/
structure PdAdvanceOutcome where
  result : Except String (Int × Option TestClockD)
  attempts : Nat
  sleeps : List ℚ
  deriving Repr

/-- `advance_clock` (generate_past_due_new.py lines 57-77) with the outcome
of its single remote advance request (line 74) made explicit: `advRaises`
names the exception that call raises (`none` when it succeeds).  The call
sits in straight-line code with no surrounding handler, no loop and no
sleep, so an exception ends the function at once after exactly one advance
request and zero backoff sleeps, propagated unchanged; on success the
function proceeds to the ready-wait as in `advance_clock`. -/
def advance_clock_checked (env : PdAdvanceEnv) (advRaises : Option String)
    (new_frozen_time : Int) (pollFuel : Nat) : PdAdvanceOutcome :=
  let cur := env.preRetrieve.frozen_time
  let target := if new_frozen_time ≤ cur then cur + 1 else new_frozen_time
  match advRaises with
  | some kind => ⟨.error kind, 1, []⟩
  | none =>
    match wait_until_testclock_ready env.pollSeq 0 pollFuel with
    | none => ⟨.ok (target, none), 1, []⟩
    | some _ => ⟨.ok (target, some env.finalRetrieve), 1, []⟩

/-! ## Dunning loop (generate_past_due_new.py lines 321-373) -/

/-- Latest-invoice snapshot read by `advance_through_retries`
(lines 343-346). -/
structure InvoiceSnap where
  invId : String
  status : Option String
  next_payment_attempt : Option Int
  attempt_count : Option Int
  deriving Repr, DecidableEq

/-- Subscription snapshot (line 332): only `latest_invoice` is consulted. -/
structure SubSnap where
  latest_invoice : Option InvoiceSnap
  deriving Repr, DecidableEq

/-- Reason the dunning loop stopped. -/
inductive DunStop where
  | noInvoice
  | alreadyPaid
  | exhausted
  deriving Repr, DecidableEq

/-- Remote outcomes feeding `advance_through_retries`: the subscription
snapshot retrieved at each round and the clock's frozen time read at each
round. -/
structure DunEnv where
  subSeq : Nat → SubSnap
  clockSeq : Nat → Int

/-- Clock target chosen in one dunning round (lines 355-370): Python's
`if next_attempt:` treats both `None` and `0` as falsy, in which case the
fallback `cur + 1 day` advance is used; otherwise the target is
`next_attempt + buffer`, bumped to `cur + 1` when not past `cur`. -/
def dunTarget (cur : Int) (next_attempt : Option Int) (buffer : Int) : Int :=
  match next_attempt with
  | some v =>
    if v = 0 then cur + 24 * 3600
    else
      let t := v + buffer
      if t ≤ cur then cur + 1 else t
  | none => cur + 24 * 3600

/-- Translation of `advance_through_retries(tc_id, sub_id, buffer_seconds,
max_rounds)` (lines 321-373): up to `max_rounds` rounds, stop when the
subscription has no latest invoice or the invoice is already paid, otherwise
advance the clock toward the invoice's next payment attempt (or one day as a
fallback) and loop.  Returns the round index at which the loop stopped, the
stop reason, and the advance targets requested along the way. -/
def advance_through_retries (env : DunEnv) (buffer : Int) :
    Nat → Nat → Nat × DunStop × List Int
  | r, 0 => (r, .exhausted, [])
  | r, fuel + 1 =>
    match (env.subSeq r).latest_invoice with
    | none => (r, .noInvoice, [])
    | some li =>
      if li.status = some "paid" then (r, .alreadyPaid, [])
      else
        let tgt := dunTarget (env.clockSeq r) li.next_payment_attempt buffer
        let rest := advance_through_retries env buffer (r + 1) fuel
        (rest.1, rest.2.1, tgt :: rest.2.2)

/-! ## Invoice pay loops of generate_date.py main -/

/-- Run-wide counters of the `summary` dict restricted to invoice outcomes,
plus a count of payment attempts made (an attempt is a `stripe.Invoice.pay`
call). -/
structure PaySummary where
  invoices_paid : Nat
  invoices_unpaid : Nat
  attempts : Nat
  deriving Repr, DecidableEq

/-- Monthly pay loop of the active flow (generate_date.py lines 514-524):
for each listed invoice `(id, status)`, if the status is open or draft,
attempt payment; success increments `invoices_paid`, failure increments
`invoices_unpaid`.  `payOk` fixes whether the pay call on a given invoice
succeeds. -/
def payOpenCounted (payOk : String → Bool) : List (String × String) → PaySummary → PaySummary
  | [], s => s
  | (i, st) :: rest, s =>
    if st = "open" ∨ st = "draft" then
      if payOk i then
        payOpenCounted payOk rest ⟨s.invoices_paid + 1, s.invoices_unpaid, s.attempts + 1⟩
      else
        payOpenCounted payOk rest ⟨s.invoices_paid, s.invoices_unpaid + 1, s.attempts + 1⟩
    else payOpenCounted payOk rest s

/-- Monthly pay loop of the canceled flow (generate_date.py lines 411-421):
same shape, but a failed pay call is swallowed by `except Exception: pass`
without touching any counter. -/
def payOpenUncounted (payOk : String → Bool) : List (String × String) → PaySummary → PaySummary
  | [], s => s
  | (i, st) :: rest, s =>
    if st = "open" ∨ st = "draft" then
      if payOk i then
        payOpenUncounted payOk rest ⟨s.invoices_paid + 1, s.invoices_unpaid, s.attempts + 1⟩
      else
        payOpenUncounted payOk rest ⟨s.invoices_paid, s.invoices_unpaid, s.attempts + 1⟩
    else payOpenUncounted payOk rest s

/-! ## Finalize-and-pay retry block (generate_date.py lines 444-478 and
538-573)

The block lists the customer's invoices up to 3 times; for each invoice it
finalizes drafts (errors swallowed), re-retrieves the status (a failed
retrieve falls back to the stale listed status) and attempts payment when the
observed status is open or draft, incrementing `invoices_paid` on success; a
failed pay call is swallowed.  The remote platform is modelled as a store
mapping invoice id to status; `stripe.Invoice.finalize_invoice` succeeds only
on a draft (making it open) and `stripe.Invoice.pay` succeeds only on an open
invoice whose charge goes through (making it paid) — on any other status the
remote call raises, which the block swallows. -/

/-- Outcomes of the remote calls made for each invoice id: whether a finalize
call reaches the platform, whether a charge on an open invoice succeeds, and
whether the re-retrieve of the invoice succeeds. -/
structure RecEnv where
  finalizeOk : String → Bool
  payOk : String → Bool
  retrieveOk : String → Bool

/-- Remote invoice store together with per-invoice tallies: `paidFor i` counts
the `invoices_paid` increments attributed to invoice `i`, `finFor i` the
finalize calls issued for `i`, and `attFor i` the pay calls issued for `i`. -/
structure RecState where
  store : String → String
  paidFor : String → Nat
  finFor : String → Nat
  attFor : String → Nat

/-- Pointwise update of a status store. -/
def updStr (f : String → String) (k v : String) : String → String :=
  fun x => if x = k then v else f x

/-- Pointwise increment of a per-invoice counter. -/
def updNat (f : String → Nat) (k : String) : String → Nat :=
  fun x => if x = k then f x + 1 else f x

/-- Processing of one listed invoice inside the retry block
(generate_date.py lines 546-568): finalize if the listed status is draft,
re-retrieve the status, pay if the observed status is open or draft.  The
boolean is the contribution to the block's `anything` flag (set on a
successful finalize or a successful pay). -/
def stepInvoice (env : RecEnv) (s : RecState) (i : String) : RecState × Bool :=
  let st := s.store i
  let store1 := if st = "draft" ∧ env.finalizeOk i then updStr s.store i "open" else s.store
  let fin1 := if st = "draft" then updNat s.finFor i else s.finFor
  let st2 := if env.retrieveOk i then store1 i else st
  if st2 = "open" ∨ st2 = "draft" then
    if store1 i = "open" ∧ env.payOk i then
      (⟨updStr store1 i "paid", updNat s.paidFor i, fin1, updNat s.attFor i⟩, true)
    else
      (⟨store1, s.paidFor, fin1, updNat s.attFor i⟩, decide (st = "draft") && env.finalizeOk i)
  else
    (⟨store1, s.paidFor, fin1, s.attFor⟩, decide (st = "draft") && env.finalizeOk i)

/-- The status the block observes for invoice `i` when deciding whether to
attempt payment (the `st2` of generate_date.py lines 556-561). -/
def observedSt (env : RecEnv) (s : RecState) (i : String) : String :=
  let st := s.store i
  let store1 := if st = "draft" ∧ env.finalizeOk i then updStr s.store i "open" else s.store
  if env.retrieveOk i then store1 i else st

/-- One pass over the listed invoices (the inner `for inv in
invoices.auto_paging_iter()` of lines 546-568), threading the state and
or-ing the `anything` flags. -/
def reconcilePass (env : RecEnv) : List String → RecState → RecState × Bool
  | [], s => (s, false)
  | i :: rest, s =>
    let r1 := stepInvoice env s i
    let r2 := reconcilePass env rest r1.1
    (r2.1, r1.2 || r2.2)

/-- The retry wrapper (`for attempt in range(3)` of lines 540-571, fuel kept
general): run a pass, stop as soon as a pass did nothing. -/
def reconcileRetry (env : RecEnv) (ids : List String) : Nat → RecState → RecState
  | 0, s => s
  | n + 1, s =>
    let r := reconcilePass env ids s
    if r.2 then reconcileRetry env ids n r.1 else r.1

/-! ## Batch control flow -/

/-- One simulated month of one customer in generate_date.py main
(lines 503-524): the clock advance is wrapped in `try/except` that only
prints a warning, then open/draft invoices are paid with both counters
maintained.  The boolean records whether the advance succeeded; processing
continues either way. -/
def gd_month_step (advRes : Except AdvanceErr ClockResp) (payOk : String → Bool)
    (invs : List (String × String)) (s : PaySummary) : Bool × PaySummary :=
  let okFlag := match advRes with
    | .ok _ => true
    | .error _ => false
  (okFlag, payOpenCounted payOk invs s)

/-- Remote outcomes for one customer of the generate_date.py batch: the
advance outcome, the pay outcomes and the listed invoices of each month. -/
structure GdEntityEnv where
  adv : Nat → Except AdvanceErr ClockResp
  payOk : String → Bool
  invs : Nat → List (String × String)

/-- Month loop of one customer (`for m2 in range(months_remaining)`,
generate_date.py lines 503-524), collecting the advance-success flag of each
month. -/
def gd_simulate_from (e : GdEntityEnv) : Nat → Nat → PaySummary → List Bool × PaySummary
  | _, 0, s => ([], s)
  | m, fuel + 1, s =>
    let r := gd_month_step (e.adv m) e.payOk (e.invs m) s
    let rest := gd_simulate_from e (m + 1) fuel r.2
    (r.1 :: rest.1, rest.2)

/-- Customer loop of generate_date.py main: every customer is simulated for
its full month span; nothing a customer does can abort the loop. -/
def gd_batch (months : Nat) : List GdEntityEnv → PaySummary → List (List Bool) × PaySummary
  | [], s => ([], s)
  | e :: rest, s =>
    let r1 := gd_simulate_from e 0 months s
    let r2 := gd_batch months rest r1.2
    (r1.1 :: r2.1, r2.2)

/-- Batch loop of generate_past_due_new.py main (lines 704-726): entities
`1..count` are run in order by `run_recover`/`run_linger` with no surrounding
`try`, so the first uncaught error ends the loop.  `runOne i` is the outcome
of entity `i`'s trajectory; the result lists the entities whose trajectory
completed, together with the error that ended the run, if any. -/
def pd_batch_from (runOne : Nat → Except AdvanceErr Unit) : Nat → Nat → List Nat × Option AdvanceErr
  | _, 0 => ([], none)
  | i, n + 1 =>
    match runOne i with
    | .error e => ([], some e)
    | .ok _ =>
      let rest := pd_batch_from runOne (i + 1) n
      (i :: rest.1, rest.2)

/-- Batch of `count` entities, numbered from 1 as in the script. -/
def pd_batch (runOne : Nat → Except AdvanceErr Unit) (count : Nat) :
    List Nat × Option AdvanceErr :=
  pd_batch_from runOne 1 count

/-! ## Witness and counterexample inputs -/

/-- Dict-like clock response frozen at 100, used as a pre-retrieve outcome. -/
def preW : ClockResp := ⟨some 100, some "ready", true, some 100, some "ready"⟩

/-- Dict-like clock response frozen at 101 with status ready. -/
def respW : ClockResp := ⟨some 101, some "ready", true, some 101, some "ready"⟩

/-- Environment in which every remote call succeeds: the clock starts at 100
and every poll sees it ready at 101. -/
def envOkW : AdvanceEnv := ⟨some preW, fun _ => true, fun _ => some respW⟩

/-- Environment in which every advance attempt raises. -/
def envFailW : AdvanceEnv := ⟨some preW, fun _ => false, fun _ => some respW⟩

/-- Past-due advance environment: the clock is frozen at 0 and every poll and
the final retrieve report status ready at frozen time 0. -/
def pdEnvCex : PdAdvanceEnv := ⟨⟨0, "ready"⟩, fun _ => ⟨0, "ready"⟩, ⟨0, "ready"⟩⟩

/-- Dict-like clock response frozen at the epoch (frozen_time 0). -/
def epochResp : ClockResp := ⟨some 0, some "ready", true, some 0, some "ready"⟩

/-- Attribute-only clock response frozen at the epoch: no dict-style access. -/
def attrOnlyResp : ClockResp := ⟨some 0, some "ready", false, none, none⟩

/-! ## Theorems -/

/-- Helper: a clock returned by the poll loop satisfies the poll exit test. -/
theorem pollLoop_ok_accept (poll : Nat → Option ClockResp) (cid : String) (tgt : Int) :
    ∀ fuel i r, pollLoop poll cid tgt i fuel = .ok r → pollAccept r tgt = true := by
  intro fuel
  induction fuel with
  | zero => intro i r h; simp [pollLoop] at h
  | succ n ih =>
    intro i r h
    cases hp : poll i with
    | none =>
      simp only [pollLoop, hp] at h
      exact ih (i + 1) r h
    | some q =>
      simp only [pollLoop, hp] at h
      by_cases ha : pollAccept q tgt = true
      · rw [if_pos ha] at h
        injection h with h
        rw [← h]
        exact ha
      · rw [if_neg ha] at h
        exact ih (i + 1) r h

/-- C1 (amended): when the requested frozen time is not strictly greater
than the observed current frozen time, both advance operations silently
substitute the effective target `cur + 1` — `advance_test_clock` behaves
exactly as a call made with the legal target `cur + 1`, and `advance_clock`
requests exactly `cur + 1` — so the non-increasing request itself never
causes a failure; in `advance_test_clock` any successfully returned clock
whose frozen time is readable shows a value strictly greater than the
observed one.  (`advance_clock`'s success gives no such guarantee on the
returned clock, since its ready-wait checks only the status; see the
counterexample.) -/
theorem advance_bump_spec (env : AdvanceEnv) (cid : String) (t : Int)
    (fuel : Nat) (r : ClockResp) (c : Int)
    (hpre : env.preRetrieve = some r) (hcur : r.curFrozen = some c) (hle : t ≤ c) :
    effectiveTarget env.preRetrieve t = c + 1 ∧
    advance_test_clock env cid t fuel = advance_test_clock env cid (c + 1) fuel ∧
    (∀ tc2 f, advance_test_clock env cid t fuel = .ok tc2 → tc2.curFrozen = some f → c < f) ∧
    (∀ (penv : PdAdvanceEnv) (t2 : Int) (pfuel : Nat),
      t2 ≤ penv.preRetrieve.frozen_time →
      (advance_clock penv t2 pfuel).1 = penv.preRetrieve.frozen_time + 1) := by
  have hnle : ¬(c + 1 ≤ c) := by omega
  have heff : effectiveTarget env.preRetrieve t = c + 1 := by
    simp [effectiveTarget, curOf, hpre, hcur, hle]
  have heff2 : effectiveTarget env.preRetrieve (c + 1) = c + 1 := by
    simp [effectiveTarget, curOf, hpre, hcur, hnle]
  refine ⟨heff, ?_, ?_, ?_⟩
  · simp only [advance_test_clock, heff, heff2]
  · intro tc2 f hok hf
    simp only [advance_test_clock, heff] at hok
    cases hr : (retryLoop env.advanceOk (1 / 2) 0 8).1 with
    | none =>
      rw [hr] at hok
      cases hok
    | some k =>
      rw [hr] at hok
      have hacc := pollLoop_ok_accept env.poll cid (c + 1) fuel 0 tc2 hok
      simp only [pollAccept, hf, Bool.and_eq_true, decide_eq_true_eq] at hacc
      omega
  · intro penv t2 pfuel ht
    simp only [advance_clock, ht, if_true]
    cases wait_until_testclock_ready penv.pollSeq 0 pfuel <;> rfl

/-- Witness for C1's amended theorem: with the clock observed at 100 and a
request of 50, the effective target is 101, the call coincides with a call at
101, the successfully returned clock shows 101 > 100; and `advance_clock`
with its clock at 0 and a request of 0 sends target 1. -/
theorem advance_bump_spec_witness :
    effectiveTarget envOkW.preRetrieve 50 = 101 ∧
    advance_test_clock envOkW "ck" 50 3 = advance_test_clock envOkW "ck" 101 3 ∧
    (100 : Int) < 101 ∧
    (advance_clock pdEnvCex 0 61).1 = pdEnvCex.preRetrieve.frozen_time + 1 := by
  refine ⟨(advance_bump_spec envOkW "ck" 50 3 preW 100 rfl (by decide) (by decide)).1,
    (advance_bump_spec envOkW "ck" 50 3 preW 100 rfl (by decide) (by decide)).2.1,
    (advance_bump_spec envOkW "ck" 50 3 preW 100 rfl (by decide) (by decide)).2.2.1
      respW 101 rfl (by decide),
    (advance_bump_spec envOkW "ck" 50 3 preW 100 rfl (by decide) (by decide)).2.2.2
      pdEnvCex 0 61 (by decide)⟩

/-- Counterexample to C1 as stated: the claim also covers `advance_clock`
(generate_past_due_new.py lines 57-77); there a non-increasing request (0
against an observed frozen time of 0) is bumped to effective target 1 and the
call succeeds, yet the returned clock's frozen time is 0 — not strictly
greater than the previously observed frozen time, because the ready-wait
never checks the frozen time. -/
theorem advance_clock_bump_cex :
    pdEnvCex.preRetrieve.frozen_time = 0 ∧
    advance_clock pdEnvCex 0 61 = (1, some ⟨0, "ready"⟩) ∧
    ¬((0 : Int) < 0) :=
  ⟨rfl, rfl, by decide⟩

/-- C2 (amended): a successful `advance_test_clock` call returns a clock whose
extracted status is "ready" and whose extracted frozen time, when present, is
at least the effective target; the poll accepts a clock whose frozen time
cannot be extracted, and the past-due script's ready-wait checks only the
status (see the counterexample). -/
theorem advance_test_clock_success_spec (env : AdvanceEnv) (cid : String) (t : Int)
    (fuel : Nat) (tc2 : ClockResp)
    (hok : advance_test_clock env cid t fuel = .ok tc2) :
    tc2.curStatus = some "ready" ∧
    ∀ f, tc2.curFrozen = some f → effectiveTarget env.preRetrieve t ≤ f := by
  simp only [advance_test_clock] at hok
  cases hr : (retryLoop env.advanceOk (1 / 2) 0 8).1 with
  | none =>
    rw [hr] at hok
    cases hok
  | some k =>
    rw [hr] at hok
    have hacc := pollLoop_ok_accept env.poll cid _ fuel 0 tc2 hok
    simp only [pollAccept, Bool.and_eq_true, beq_iff_eq] at hacc
    refine ⟨hacc.1, ?_⟩
    intro f hf
    have h2 := hacc.2
    rw [hf] at h2
    simpa using h2

/-- Witness for C2's amended theorem on a successful concrete call. -/
theorem advance_test_clock_success_spec_witness :
    respW.curStatus = some "ready" ∧
    ∀ f, respW.curFrozen = some f → effectiveTarget envOkW.preRetrieve 50 ≤ f :=
  advance_test_clock_success_spec envOkW "ck" 50 3 respW rfl

/-- Counterexample to C2 as stated: in generate_past_due_new.py the polling
loop (`wait_until_testclock_ready`) exits on `status == "ready"` alone, so a
successful `advance_clock` call can return a clock whose frozen time (0) is
strictly below the effective requested target (100). -/
theorem advance_clock_poll_cex :
    advance_clock pdEnvCex 100 61 = (100, some ⟨0, "ready"⟩) ∧ (0 : Int) < 100 := by
  constructor
  · rfl
  · decide

/-- Helper: closed form of the capped exponential backoff sequence. -/
theorem backoffSeq_closed (n : Nat) :
    backoffSeq n = min ((1 / 2) * (3 / 2) ^ n : ℚ) 5 := by
  induction n with
  | zero => norm_num [backoffSeq]
  | succ m ih =>
    rw [backoffSeq, ih]
    rcases le_or_lt ((1 / 2) * (3 / 2) ^ m : ℚ) 5 with h | h
    · rw [min_eq_left h]
      have hx : ((1 / 2) * (3 / 2) ^ (m + 1) : ℚ) = ((1 / 2) * (3 / 2) ^ m) * (3 / 2) := by
        ring
      rw [hx]
    · have h1 : min ((1 / 2) * (3 / 2) ^ m : ℚ) 5 = 5 := min_eq_right (le_of_lt h)
      have hge : (5 : ℚ) ≤ (1 / 2) * (3 / 2) ^ (m + 1) := by
        have hx : ((1 / 2) * (3 / 2) ^ (m + 1) : ℚ) = ((1 / 2) * (3 / 2) ^ m) * (3 / 2) := by
          ring
        rw [hx]
        nlinarith
      rw [h1, min_eq_right (by norm_num : (5 : ℚ) ≤ 5 * (3 / 2)), min_eq_right hge]

/-- Helper: started at attempt `a` with backoff `backoffSeq a`, the retry loop
sleeps exactly the backoff sequence over an initial run of attempts. -/
theorem retryLoop_sleeps (ok : Nat → Bool) :
    ∀ fuel a, ∃ m, m ≤ fuel ∧
      (retryLoop ok (backoffSeq a) a fuel).2 = (List.range' a m).map backoffSeq := by
  intro fuel
  induction fuel with
  | zero => intro a; exact ⟨0, le_refl 0, rfl⟩
  | succ n ih =>
    intro a
    by_cases h : ok a = true
    · refine ⟨0, Nat.zero_le _, ?_⟩
      simp [retryLoop, h]
    · obtain ⟨m, hm, hs⟩ := ih (a + 1)
      refine ⟨m + 1, by omega, ?_⟩
      have hstep : min (backoffSeq a * (3 / 2)) 5 = backoffSeq (a + 1) := rfl
      simp only [retryLoop, if_neg h, hstep, hs, List.range'_succ, List.map_cons]

/-- Helper: when every attempt in range fails, the retry loop reports no
successful attempt. -/
theorem retryLoop_none (ok : Nat → Bool) :
    ∀ fuel a b, (∀ j, a ≤ j → j < a + fuel → ok j = false) →
      (retryLoop ok b a fuel).1 = none := by
  intro fuel
  induction fuel with
  | zero => intro a b _; rfl
  | succ n ih =>
    intro a b hall
    have h : ok a = false := hall a (le_refl a) (by omega)
    have h' : ¬(ok a = true) := by simp [h]
    simp only [retryLoop, if_neg h']
    exact ih (a + 1) _ (fun j hj1 hj2 => hall j (by omega) (by omega))

/-- Helper: a successful attempt index reported by the retry loop lies below
the attempt bound. -/
theorem retryLoop_some_lt (ok : Nat → Bool) :
    ∀ fuel a b k, (retryLoop ok b a fuel).1 = some k → k < a + fuel := by
  intro fuel
  induction fuel with
  | zero => intro a b k h; simp [retryLoop] at h
  | succ n ih =>
    intro a b k h
    by_cases ha : ok a = true
    · simp only [retryLoop, if_pos ha] at h
      injection h with h
      omega
    · simp only [retryLoop, if_neg ha] at h
      have := ih (a + 1) _ k h
      omega

/-- C7 (amended): each `advance_test_clock` call makes at most 8 advance
attempts; the n-th failed attempt sleeps `min (0.5 * 1.5 ^ n) 5.0` seconds;
and when all 8 attempts fail the call raises the advance-failure error
naming the clock (and the attempt bound) instead of retrying further.
`advance_clock` of generate_past_due_new.py instead issues a single
unguarded advance request: any exception — rate limit included —
propagates unchanged at once, after exactly one attempt and zero backoff
sleeps, and no advance-failure error is ever produced (see the
counterexample). -/
theorem advance_retry_backoff_spec (env : AdvanceEnv) (cid : String) (t : Int) (fuel : Nat) :
    (∃ m, m ≤ 8 ∧
      advanceSleeps env = (List.range m).map (fun n => min ((1 / 2) * (3 / 2) ^ n : ℚ) 5)) ∧
    (∀ k, advanceFirstOk env = some k → k < 8) ∧
    ((∀ j, j < 8 → env.advanceOk j = false) →
      advance_test_clock env cid t fuel = .error (.advanceFailed cid 8)) ∧
    (∀ (penv : PdAdvanceEnv) (kind : String) (t2 : Int) (pfuel : Nat),
      advance_clock_checked penv (some kind) t2 pfuel = ⟨.error kind, 1, []⟩) := by
  refine ⟨?_, ?_, ?_, fun penv kind t2 pfuel => rfl⟩
  · obtain ⟨m, hm, hs⟩ := retryLoop_sleeps env.advanceOk 8 0
    refine ⟨m, hm, ?_⟩
    have h0 : advanceSleeps env = (retryLoop env.advanceOk (backoffSeq 0) 0 8).2 := rfl
    have hfun : backoffSeq = fun n => min ((1 / 2) * (3 / 2) ^ n : ℚ) 5 :=
      funext backoffSeq_closed
    rw [h0, hs, List.range_eq_range', ← hfun]
  · intro k hk
    have h0 : advanceFirstOk env = (retryLoop env.advanceOk (backoffSeq 0) 0 8).1 := rfl
    rw [h0] at hk
    have := retryLoop_some_lt env.advanceOk 8 0 (backoffSeq 0) k hk
    omega
  · intro hall
    have h := retryLoop_none env.advanceOk 8 0 (1 / 2) (fun j _ h2 => hall j (by omega))
    simp only [advance_test_clock, h]

/-- Witness for C7's amended theorem: with every attempt failing, the
concrete `advance_test_clock` call raises the advance-failure error for the
clock after 8 attempts, while a rate-limited `advance_clock` call propagates
the rate-limit error after one attempt with no sleeps. -/
theorem advance_retry_backoff_spec_witness :
    advance_test_clock envFailW "ck" 10 3 = .error (.advanceFailed "ck" 8) ∧
    advance_clock_checked pdEnvCex (some "RateLimitError") 100 61 =
      ⟨.error "RateLimitError", 1, []⟩ :=
  ⟨(advance_retry_backoff_spec envFailW "ck" 10 3).2.2.1 (by decide),
   (advance_retry_backoff_spec envFailW "ck" 10 3).2.2.2 pdEnvCex "RateLimitError" 100 61⟩

/-- Counterexample to C7 as stated: the claim covers every clock-advance
request and cites `advance_clock` of generate_past_due_new.py (lines 57-77),
which has no retry loop — a rate-limit error from its single advance request
ends the call at once: the propagated error is the rate-limit error itself
(no AdvanceFailed-style error naming the clock), exactly one attempt is made
(not up to 8), and no backoff sleep is performed. -/
theorem advance_clock_no_retry_cex :
    (advance_clock_checked pdEnvCex (some "RateLimitError") 100 61).result
      = .error "RateLimitError" ∧
    (advance_clock_checked pdEnvCex (some "RateLimitError") 100 61).attempts = 1 ∧
    (advance_clock_checked pdEnvCex (some "RateLimitError") 100 61).sleeps = [] :=
  ⟨rfl, rfl, rfl⟩

/-- C10 (amended): the monotonicity check of `advance_test_clock` is skipped
— the requested frozen time goes out unmodified — when the initial retrieve
raises, or when the attribute read yields nothing or 0 and the response has
no dict-style fallback; but for a dict-like response frozen at the epoch the
fallback returns 0, `cur` is 0 (not None), and the `cur + 1` bump still
applies. -/
theorem effectiveTarget_skip_spec (t : Int) (r : ClockResp) :
    effectiveTarget none t = t ∧
    ((r.attr_frozen = none ∨ r.attr_frozen = some 0) → r.has_get = false →
      effectiveTarget (some r) t = t) ∧
    (r.attr_frozen = some 0 → r.has_get = true → r.dict_frozen = some 0 → t ≤ 0 →
      effectiveTarget (some r) t = 1) := by
  refine ⟨rfl, ?_, ?_⟩
  · intro h hg
    rcases h with h | h <;>
      simp [effectiveTarget, curOf, ClockResp.curFrozen, pyOrInt, h, hg]
  · intro h hg hd ht
    simp [effectiveTarget, curOf, ClockResp.curFrozen, pyOrInt, h, hg, hd, ht]

/-- Witness for C10's amended theorem: the attribute-only epoch response lets
a non-increasing request (-5) through unmodified, while the dict-like epoch
response still triggers the bump to 1. -/
theorem effectiveTarget_skip_spec_witness :
    effectiveTarget (some attrOnlyResp) (-5) = -5 ∧
    effectiveTarget (some epochResp) (-5) = 1 :=
  ⟨(effectiveTarget_skip_spec (-5) attrOnlyResp).2.1 (Or.inr rfl) rfl,
   (effectiveTarget_skip_spec (-5) epochResp).2.2 rfl rfl rfl (by decide)⟩

/-- Helper: bound and stop-reason characterization of the dunning loop,
generalized over the starting round. -/
theorem advance_through_retries_aux (env : DunEnv) (buffer : Int) :
    ∀ fuel r,
      (advance_through_retries env buffer r fuel).1 ≤ r + fuel ∧
      ((advance_through_retries env buffer r fuel).2.1 = .noInvoice →
        (env.subSeq (advance_through_retries env buffer r fuel).1).latest_invoice = none) ∧
      ((advance_through_retries env buffer r fuel).2.1 = .alreadyPaid →
        ∃ li, (env.subSeq (advance_through_retries env buffer r fuel).1).latest_invoice
            = some li ∧ li.status = some "paid") ∧
      ((advance_through_retries env buffer r fuel).2.1 = .exhausted →
        (advance_through_retries env buffer r fuel).1 = r + fuel) := by
  intro fuel
  induction fuel with
  | zero =>
    intro r
    refine ⟨by simp [advance_through_retries], ?_, ?_, ?_⟩ <;>
      simp [advance_through_retries]
  | succ n ih =>
    intro r
    cases hli : (env.subSeq r).latest_invoice with
    | none =>
      refine ⟨?_, ?_, ?_, ?_⟩ <;> simp [advance_through_retries, hli]
    | some li =>
      by_cases hp : li.status = some "paid"
      · refine ⟨?_, ?_, ?_, ?_⟩ <;> simp [advance_through_retries, hli, hp]
      · have hrec := ih (r + 1)
        simp only [advance_through_retries, hli, if_neg hp]
        refine ⟨by omega, hrec.2.1, hrec.2.2.1, ?_⟩
        intro h
        have := hrec.2.2.2 h
        omega

/-- C5: `advance_through_retries` terminates within `maxRounds` rounds: the
stop round is at most `maxRounds`; it stops early exactly when the
subscription has no latest invoice or the invoice is already paid at that
round; and when `maxRounds` is exhausted the loop simply ends normally at
round `maxRounds` with whatever non-paid status the invoice has — not an
error. -/
theorem advance_through_retries_bounded (env : DunEnv) (buffer : Int) (maxRounds : Nat) :
    (advance_through_retries env buffer 0 maxRounds).1 ≤ maxRounds ∧
    ((advance_through_retries env buffer 0 maxRounds).2.1 = .noInvoice →
      (env.subSeq (advance_through_retries env buffer 0 maxRounds).1).latest_invoice = none) ∧
    ((advance_through_retries env buffer 0 maxRounds).2.1 = .alreadyPaid →
      ∃ li, (env.subSeq (advance_through_retries env buffer 0 maxRounds).1).latest_invoice
          = some li ∧ li.status = some "paid") ∧
    ((advance_through_retries env buffer 0 maxRounds).2.1 = .exhausted →
      (advance_through_retries env buffer 0 maxRounds).1 = maxRounds) := by
  have h := advance_through_retries_aux env buffer maxRounds 0
  simpa using h

/-- Dunning environment in which the invoice is never paid: every round sees
an open invoice with a scheduled next payment attempt. -/
def dunEnvW : DunEnv :=
  ⟨fun _ => ⟨some ⟨"in_1", some "open", some 1000, some 1⟩⟩, fun _ => 500⟩

/-- Witness for C5: with an invoice that never becomes paid, the loop runs
exactly the 10 reference rounds and stops normally. -/
theorem advance_through_retries_bounded_witness :
    (advance_through_retries dunEnvW 60 0 10).1 ≤ 10 ∧
    (advance_through_retries dunEnvW 60 0 10).1 = 10 :=
  ⟨(advance_through_retries_bounded dunEnvW 60 10).1,
   (advance_through_retries_bounded dunEnvW 60 10).2.2.2 (by decide)⟩

/-- Helper: processing any invoice of the retry block leaves an already-paid
invoice's remote status and per-invoice tallies untouched. -/
theorem stepInvoice_preserve_paid (env : RecEnv) (s : RecState) (i j : String)
    (hp : s.store i = "paid") :
    (stepInvoice env s j).1.store i = "paid" ∧
    (stepInvoice env s j).1.paidFor i = s.paidFor i ∧
    (stepInvoice env s j).1.finFor i = s.finFor i ∧
    (stepInvoice env s j).1.attFor i = s.attFor i := by
  by_cases hij : i = j
  · subst hij
    have h1 : ¬(s.store i = "draft" ∧ env.finalizeOk i = true) := by
      simp [hp]
    have h2 : ¬(s.store i = "draft") := by simp [hp]
    simp only [stepInvoice, if_neg h1, if_neg h2]
    have h3 : ¬((if env.retrieveOk i = true then s.store i else s.store i) = "open" ∨
        (if env.retrieveOk i = true then s.store i else s.store i) = "draft") := by
      split <;> simp [hp]
    rw [if_neg h3]
    exact ⟨hp, rfl, rfl, rfl⟩
  · simp only [stepInvoice]
    split_ifs <;> simp_all [updStr, updNat, hij]

/-- Helper: a pass of the retry block preserves already-paid invoices. -/
theorem reconcilePass_preserve_paid (env : RecEnv) (i : String) :
    ∀ ids s, s.store i = "paid" →
      (reconcilePass env ids s).1.store i = "paid" ∧
      (reconcilePass env ids s).1.paidFor i = s.paidFor i ∧
      (reconcilePass env ids s).1.finFor i = s.finFor i ∧
      (reconcilePass env ids s).1.attFor i = s.attFor i := by
  intro ids
  induction ids with
  | nil => intro s hp; exact ⟨hp, rfl, rfl, rfl⟩
  | cons j rest ih =>
    intro s hp
    have hstep := stepInvoice_preserve_paid env s i j hp
    have hrest := ih (stepInvoice env s j).1 hstep.1
    simp only [reconcilePass]
    exact ⟨hrest.1, hrest.2.1.trans hstep.2.1, hrest.2.2.1.trans hstep.2.2.1,
      hrest.2.2.2.trans hstep.2.2.2⟩

/-- Helper: the full retry wrapper preserves already-paid invoices. -/
theorem reconcileRetry_preserve_paid (env : RecEnv) (ids : List String) (i : String) :
    ∀ n s, s.store i = "paid" →
      (reconcileRetry env ids n s).store i = "paid" ∧
      (reconcileRetry env ids n s).paidFor i = s.paidFor i ∧
      (reconcileRetry env ids n s).finFor i = s.finFor i ∧
      (reconcileRetry env ids n s).attFor i = s.attFor i := by
  intro n
  induction n with
  | zero => intro s hp; exact ⟨hp, rfl, rfl, rfl⟩
  | succ m ih =>
    intro s hp
    have hpass := reconcilePass_preserve_paid env i ids s hp
    simp only [reconcileRetry]
    by_cases hflag : (reconcilePass env ids s).2 = true
    · rw [if_pos hflag]
      have hrec := ih (reconcilePass env ids s).1 hpass.1
      exact ⟨hrec.1, hrec.2.1.trans hpass.2.1, hrec.2.2.1.trans hpass.2.2.1,
        hrec.2.2.2.trans hpass.2.2.2⟩
    · rw [if_neg hflag]
      exact hpass

/-- Helper: a payment attempt is issued only when the observed status is open
or draft. -/
theorem stepInvoice_attempt_observed (env : RecEnv) (s : RecState) (i : String)
    (h : (stepInvoice env s i).1.attFor i ≠ s.attFor i) :
    observedSt env s i = "open" ∨ observedSt env s i = "draft" := by
  by_contra hno
  rw [not_or] at hno
  apply h
  simp only [stepInvoice]
  simp only [observedSt] at hno
  rw [if_neg (not_or.mpr hno)]

/-- C6: reconciliation is idempotent on already-paid invoices: once invoice
`i` is paid on the platform, running the finalize-and-pay retry block (any
number of passes — hence also across successive reconciliation calls) leaves
it paid, issues no finalize call and no payment attempt for it, and never
again increments the paid counter for it; moreover a payment attempt on any
invoice is issued only when its observed status is open or draft. -/
theorem reconcile_paid_idempotent (env : RecEnv) (ids : List String) (n : Nat)
    (s : RecState) (i : String) :
    (s.store i = "paid" →
      (reconcileRetry env ids n s).store i = "paid" ∧
      (reconcileRetry env ids n s).paidFor i = s.paidFor i ∧
      (reconcileRetry env ids n s).finFor i = s.finFor i ∧
      (reconcileRetry env ids n s).attFor i = s.attFor i) ∧
    ((stepInvoice env s i).1.attFor i ≠ s.attFor i →
      observedSt env s i = "open" ∨ observedSt env s i = "draft") :=
  ⟨fun hp => reconcileRetry_preserve_paid env ids i n s hp,
   stepInvoice_attempt_observed env s i⟩

/-- Reconciliation environment in which every remote call succeeds. -/
def recEnvW : RecEnv := ⟨fun _ => true, fun _ => true, fun _ => true⟩

/-- Reconciliation state in which every invoice is already paid. -/
def recStateW : RecState := ⟨fun _ => "paid", fun _ => 0, fun _ => 0, fun _ => 0⟩

/-- Witness for C6: reconciling an already-paid invoice three times leaves it
paid and never increments its paid tally. -/
theorem reconcile_paid_idempotent_witness :
    (reconcileRetry recEnvW ["in_a"] 3 recStateW).store "in_a" = "paid" ∧
    (reconcileRetry recEnvW ["in_a"] 3 recStateW).paidFor "in_a" = recStateW.paidFor "in_a" :=
  ⟨((reconcile_paid_idempotent recEnvW ["in_a"] 3 recStateW "in_a").1 rfl).1,
   ((reconcile_paid_idempotent recEnvW ["in_a"] 3 recStateW "in_a").1 rfl).2.1⟩

/-- Helper: the month loop of generate_date.py processes every month. -/
theorem gd_simulate_from_length (e : GdEntityEnv) :
    ∀ fuel m s, (gd_simulate_from e m fuel s).1.length = fuel := by
  intro fuel
  induction fuel with
  | zero => intro m s; rfl
  | succ n ih =>
    intro m s
    simp only [gd_simulate_from, List.length_cons, ih]

/-- C8 (amended): in generate_date.py a failed clock advance is caught inside
the month loop and only warned about, so neither the entity's trajectory nor
the run is aborted: every entity in the batch is processed for its full month
span regardless of the advance outcomes.  (In generate_past_due_new.py batch
mode an advance failure instead propagates and halts the whole run; see the
counterexample.) -/
theorem gd_batch_continues (months : Nat) :
    ∀ envs s, (gd_batch months envs s).1.length = envs.length ∧
      ∀ tr ∈ (gd_batch months envs s).1, tr.length = months := by
  intro envs
  induction envs with
  | nil =>
    intro s
    exact ⟨rfl, by intro tr htr; cases htr⟩
  | cons e rest ih =>
    intro s
    simp only [gd_batch, List.length_cons]
    constructor
    · exact congrArg Nat.succ (ih _).1
    · intro tr htr
      rcases List.mem_cons.mp htr with h | h
      · rw [h]
        exact gd_simulate_from_length e months 0 _
      · exact (ih _).2 tr h

/-- Entity environment whose every clock advance fails. -/
def gdEnvFailW : GdEntityEnv :=
  ⟨fun _ => .error (.advanceFailed "ck" 8), fun _ => false, fun _ => [("in_1", "open")]⟩

/-- Witness for C8's amended theorem: two entities whose every advance fails
are both still fully processed. -/
theorem gd_batch_continues_witness :
    (gd_batch 2 [gdEnvFailW, gdEnvFailW] ⟨0, 0, 0⟩).1.length = 2 :=
  (gd_batch_continues 2 [gdEnvFailW, gdEnvFailW] ⟨0, 0, 0⟩).1

/-- Per-entity outcome in which entity 1's trajectory fails with the
advance-failure error and every other entity's trajectory would succeed. -/
def pdRunFailW : Nat → Except AdvanceErr Unit :=
  fun i => if i = 1 then .error (.advanceFailed "tc_1" 8) else .ok ()

/-- Counterexample to C8 as stated: in generate_past_due_new.py batch mode an
advance failure in entity 1's trajectory halts the whole run — no entity
completes and entity 2 is never processed, contradicting that the batch
continues with the remaining entities. -/
theorem pd_batch_halts_cex :
    pd_batch pdRunFailW 2 = ([], some (.advanceFailed "tc_1" 8)) := by
  rfl

/-- C9 (amended): the active-flow monthly pay loop counts every payment
attempt — for each listed invoice whose status is open or draft, a
successful pay increments `invoices_paid` and a failed pay increments
`invoices_unpaid`.  (The canceled-flow loop instead swallows failures
without counting them; see the counterexample.) -/
theorem payOpenCounted_counts (payOk : String → Bool) :
    ∀ invs s, payOpenCounted payOk invs s =
      ⟨s.invoices_paid +
          invs.countP (fun p => decide (p.2 = "open" ∨ p.2 = "draft") && payOk p.1),
        s.invoices_unpaid +
          invs.countP (fun p => decide (p.2 = "open" ∨ p.2 = "draft") && !payOk p.1),
        s.attempts + invs.countP (fun p => decide (p.2 = "open" ∨ p.2 = "draft"))⟩ := by
  intro invs
  induction invs with
  | nil => intro s; simp [payOpenCounted]
  | cons p rest ih =>
    intro s
    obtain ⟨i, st⟩ := p
    by_cases hst : st = "open" ∨ st = "draft"
    · by_cases hpay : payOk i = true
      · simp only [payOpenCounted, if_pos hst, hpay, if_pos rfl, ih, List.countP_cons]
        simp [hst, hpay, PaySummary.mk.injEq]
        omega
      · rw [Bool.not_eq_true] at hpay
        simp only [payOpenCounted, if_pos hst, hpay, ih, List.countP_cons]
        simp [hst, hpay, PaySummary.mk.injEq]
        omega
    · simp only [payOpenCounted, if_neg hst, ih, List.countP_cons]
      simp [hst]

/-- Counterexample to C9 as stated: in the canceled-flow monthly loop a
failed payment attempt on an open invoice (attempt count goes to 1) leaves
`invoices_unpaid` at 0 — the failed attempt is not counted. -/
theorem payOpenUncounted_cex :
    payOpenUncounted (fun _ => false) [("in_1", "open")] ⟨0, 0, 0⟩ = ⟨0, 0, 1⟩ := by
  rfl

/-- Counterexample to C10 as stated: for a dict-like clock response frozen at
the epoch, the duck-typed extraction yields 0 (which is not None), so the
monotonicity check is not skipped: a request of 0 is replaced by 1 rather
than sent unmodified. -/
theorem epoch_bump_cex :
    epochResp.curFrozen = some 0 ∧ effectiveTarget (some epochResp) 0 = 1 := by
  decide

/-- C3: for every anchor, every index ≥ 0, every interval > 0 and every
current clock position, `next_cycle_after` returns a value strictly greater
than `current`, and the result is `anchor + k * interval + 60` for some
implied cycle index `k` that is never less than the requested index. -/
theorem next_cycle_after_invariant (anchor idx cur month : Int)
    (hidx : 0 ≤ idx) (hm : 0 < month) :
    cur < next_cycle_after anchor idx cur month ∧
    ∃ k, idx ≤ k ∧ next_cycle_after anchor idx cur month = anchor + k * month + 60 := by
  have hm0 : (0 : Int) ≤ month := le_of_lt hm
  unfold next_cycle_after
  by_cases h1 : cur < anchor + idx * month + 60
  · simp only [h1, if_true]
    exact ⟨trivial, idx, le_refl idx, rfl⟩
  · simp only [h1, if_false]
    push_neg at h1
    have hidxm : (0 : Int) ≤ idx * month := mul_nonneg hidx hm0
    have hel : 0 ≤ cur - anchor - 60 := by linarith
    have hnneg : ¬(cur - anchor - 60 < 0) := not_lt.mpr hel
    simp only [hnneg, if_false]
    have hfd : (cur - anchor - 60).fdiv month = (cur - anchor - 60) / month :=
      Int.fdiv_eq_ediv _ hm0
    have hge : idx ≤ (cur - anchor - 60) / month :=
      (Int.le_ediv_iff_mul_le hm).mpr (by linarith)
    have hk0 : ¬((cur - anchor - 60).fdiv month + 1 < idx) := by
      rw [hfd]; omega
    simp only [hk0, if_false]
    constructor
    · have hlt : cur - anchor - 60 < ((cur - anchor - 60) / month + 1) * month :=
        Int.lt_ediv_add_one_mul_self _ hm
      rw [hfd]; linarith
    · exact ⟨(cur - anchor - 60).fdiv month + 1, by rw [hfd]; omega, rfl⟩

/-- Witness for C3 at the spec's reference input. -/
theorem next_cycle_after_invariant_witness :
    (1735689600 : Int) < next_cycle_after 1735689600 3 1735689600 2592000 ∧
    ∃ k, (3 : Int) ≤ k ∧
      next_cycle_after 1735689600 3 1735689600 2592000 = 1735689600 + k * 2592000 + 60 :=
  next_cycle_after_invariant 1735689600 3 1735689600 2592000 (by decide) (by decide)

/-- C4: `next_cycle_after` returns `anchor + index * interval + 60` whenever
that value exceeds `current`; otherwise (for index ≥ 0 and interval > 0) it
returns `anchor + k * interval + 60` with
`k = max index (floor((current - anchor - 60) / interval) + 1)`; and at the
reference input `anchor = 1735689600`, `interval = 2592000`, `index = 3`,
`current = 1735689600` it returns `1735689600 + 3 * 2592000 + 60`. -/
theorem next_cycle_after_formula (anchor idx cur month : Int) :
    (cur < anchor + idx * month + 60 →
      next_cycle_after anchor idx cur month = anchor + idx * month + 60) ∧
    (0 ≤ idx → 0 < month → anchor + idx * month + 60 ≤ cur →
      next_cycle_after anchor idx cur month =
        anchor + max idx ((cur - anchor - 60).fdiv month + 1) * month + 60) ∧
    next_cycle_after 1735689600 3 1735689600 2592000 = 1735689600 + 3 * 2592000 + 60 := by
  refine ⟨?_, ?_, by decide⟩
  · intro h1
    simp only [next_cycle_after, h1, if_true]
  · intro hidx hm h1
    have hm0 : (0 : Int) ≤ month := le_of_lt hm
    have hnlt : ¬(cur < anchor + idx * month + 60) := not_lt.mpr h1
    have hidxm : (0 : Int) ≤ idx * month := mul_nonneg hidx hm0
    have hel : ¬(cur - anchor - 60 < 0) := by push_neg; linarith
    have hfd : (cur - anchor - 60).fdiv month = (cur - anchor - 60) / month :=
      Int.fdiv_eq_ediv _ hm0
    have hge : idx ≤ (cur - anchor - 60) / month :=
      (Int.le_ediv_iff_mul_le hm).mpr (by linarith)
    have hk0 : ¬((cur - anchor - 60).fdiv month + 1 < idx) := by rw [hfd]; omega
    have hmax : max idx ((cur - anchor - 60).fdiv month + 1) =
        (cur - anchor - 60).fdiv month + 1 := by rw [hfd]; omega
    simp only [next_cycle_after, hnlt, if_false, hel, hk0, hmax]

/-- Witness for C4 exercising the drift-correcting branch: with anchor 0,
index 1, interval 100 and current 1000 the nominal cycle lies in the past and
the recomputed index is `max 1 (floor(940 / 100) + 1) = 10`. -/
theorem next_cycle_after_formula_witness :
    next_cycle_after 0 1 1000 100 = 0 + max 1 (((1000 : Int) - 0 - 60).fdiv 100 + 1) * 100 + 60 :=
  (next_cycle_after_formula 0 1 1000 100).2.1 (by decide) (by decide) (by decide)

end StripeGen
